import Mathlib

/-!
Shallow embedding of the LatTest kernel module (latency-variance sampler).

The main revision modelled here is the full one (`src/unnamed/part_000`):
a periodic hrtimer callback `lattest_timer_function` that measures the
deviation of the actual period from the nominal one, accumulates running
statistics (min/max/count/sum/sum-of-squares) and a configurable histogram,
plus the sysfs store callbacks (`store_period_cb`, `store_control_cb`,
`store_config_cb`) and the derived statistics computed by
`show_statistics_cb`.

An intermediate revision (`src/lattest/lattest.c`) of the timer callback is
modelled separately as `lattest_c_timer_function`.

Modelling conventions:
- C `long long` values are modelled as `Int`, `unsigned`/array contents as
  `Nat`; arithmetic is exact (overflow of additions/multiplications, which
  is undefined behaviour in C, is assumed absent).
- The explicit narrowing that the source itself points out is modelled
  faithfully: `do_div` divides a `uint64` by a `uint32`, so the divisor of
  `div_ll` is reduced mod 2^32; the `long long` argument of `isqrtu64` is
  reinterpreted as `uint64` (two's complement, i.e. mod 2^64).
- `>>`, `&1` on two's-complement signed values are floor division and
  nonnegative remainder, i.e. `Int.ediv`/`Int.emod` (the defaults `/`, `%`).
- The hrtimer scheduling itself (`hrtimer_forward`, `hrtimer_start`) is
  external to the module; the callback is modelled as a function from the
  module state and the observed time `now_ns` to the new state and the
  restart request it returns.
-/

/-- Return value of the hrtimer callback (`enum hrtimer_restart`). -/
inductive hrtimer_restart where
  | HRTIMER_RESTART
  | HRTIMER_NORESTART
deriving DecidableEq, Repr

/-- Outcome of a sysfs store callback: success (the byte count is returned)
or `-EINVAL`. -/
inductive CbResult where
  | ok
  | einval
deriving DecidableEq, Repr

/-- Function `div_ll` from `part_000`: 64-bit signed division built on `do_div`.
`do_div` is a `uint64 / uint32` division (the source comments: "Attention:
do_div actually is uint64 / uint32!"), so the absolute value of the divisor
is narrowed to 32 bits before dividing.  The sign of the quotient is
restored from `(n < 0) ^ (base < 0)`. -/
def div_ll (n base : Int) : Int :=
  let a : Nat := n.natAbs
  let b : Nat := base.natAbs % 2 ^ 32
  let q : Nat := a / b
  if (n < 0) ≠ (base < 0) then -(q : Int) else (q : Int)

/-- First loop of `isqrtu64`: shift `one` down to the highest power of four
that is ≤ the argument (`while (one > op) one >>= 2`).  The loop runs at
most 32 times, which the explicit fuel makes structural. -/
def isqrtAlign (fuel : Nat) (op one : Nat) : Nat :=
  match fuel with
  | 0 => one
  | f + 1 => if one > op then isqrtAlign f op (one / 4) else one

/-- Main loop of `isqrtu64` (`while (one != 0) ...`): binary digit-by-digit
square root refinement.  Returns the final `(op, res)` pair.  The loop runs
at most 32 times, which the explicit fuel makes structural. -/
def isqrtLoop (fuel : Nat) (op res one : Nat) : Nat × Nat :=
  match fuel with
  | 0 => (op, res)
  | f + 1 =>
    if one = 0 then (op, res)
    else
      let op' := if op ≥ res + one then op - (res + one) else op
      let res' := if op ≥ res + one then res + 2 * one else res
      isqrtLoop f op' (res' / 2) (one / 4)

/-- Function `isqrtu64` from `part_000`: fast square root with arithmetic rounding
(round to nearest, 0.5 rounds up).  `one` starts at `1uLL << 62`. -/
def isqrtu64 (a_nInput : Nat) : Nat :=
  let op := a_nInput
  let one := isqrtAlign 32 op (2 ^ 62)
  let p := isqrtLoop 32 op 0 one
  if p.1 > p.2 then p.2 + 1 else p.2

/-- Constant `HIST_BIN_MAX` from `part_000`: capacity of the histogram array. -/
def HIST_BIN_MAX : Nat := 256

/-- The constant `LLONG_MAX`. -/
def LLONG_MAX : Int := 2 ^ 63 - 1

/-- The constant `LLONG_MIN`. -/
def LLONG_MIN : Int := -(2 ^ 63)

/-- The `HIST_BIN_LOW(i)` macro from `part_000`:
`(hist_bin_width>>1)*(hist_bin_num&1)+((i)-((hist_bin_num+1)>>1))*hist_bin_width`.
Arithmetic shift right by one and `&1` on two's-complement values are
`Int.ediv`/`Int.emod` by 2, written `/`, `%`. -/
def HIST_BIN_LOW (num width i : Int) : Int :=
  (width / 2) * (num % 2) + (i - (num + 1) / 2) * width

/-- The module state: the global variables of `part_000` that the modelled
operations read or write. -/
structure LatState where
  /-- `period_ms`: period of the hrtimer in ms. -/
  period_ms : Nat
  /-- `runcount`: number of timer occurrences to run; set > 0 and
  decremented, -1 denotes infinite runs, 0 denotes stopped. -/
  runcount : Int
  /-- `last_now_ns`: last observed `now` in ns; 0 denotes the first run. -/
  last_now_ns : Int
  /-- `hist_bin_num`: configured number of used bins (≤ `HIST_BIN_MAX`). -/
  hist_bin_num : Int
  /-- `hist_bin_width`: configured width of bins in ns. -/
  hist_bin_width : Int
  stat_min : Int
  stat_max : Int
  stat_num : Int
  stat_sum : Int
  stat_sumsq : Int
  /-- `histogram[HIST_BIN_MAX]`: the bin counters. -/
  histogram : List Nat
deriving DecidableEq, Repr

/-- The bin index computed in `lattest_timer_function`:
`hist_bin = div_ll(diff_ns - HIST_BIN_LOW(0), hist_bin_width)` followed by
the two clamping steps into `[0, hist_bin_num - 1]`. -/
def hist_bin_index (num width diff_ns : Int) : Int :=
  let hist_bin := div_ll (diff_ns - HIST_BIN_LOW num width 0) width
  let hist_bin := if hist_bin < 0 then 0 else hist_bin
  if hist_bin ≥ num then num - 1 else hist_bin

/-- The statistics-accumulation block of `lattest_timer_function`:
min/max/count/sum/sum-of-squares update with the jitter sample `diff_ns`. -/
def stat_update (s : LatState) (diff_ns : Int) : LatState :=
  { s with
    stat_min := if diff_ns < s.stat_min then diff_ns else s.stat_min
    stat_max := if diff_ns > s.stat_max then diff_ns else s.stat_max
    stat_num := s.stat_num + 1
    stat_sum := s.stat_sum + diff_ns
    stat_sumsq := s.stat_sumsq + diff_ns * diff_ns }

/-- The histogram-increment block of `lattest_timer_function`:
`histogram[hist_bin]++` at the clamped bin index.  The counters are C
`unsigned int`, so the increment wraps around mod 2^32 (defined
behaviour). -/
def hist_update (s : LatState) (diff_ns : Int) : LatState :=
  let idx := (hist_bin_index s.hist_bin_num s.hist_bin_width diff_ns).toNat
  { s with histogram := s.histogram.set idx ((s.histogram.getD idx 0 + 1) % 2 ^ 32) }

/-- Function `lattest_timer_function` from `part_000`.  If `last_now_ns != 0`, the
jitter `diff_ns = (now_ns - last_now_ns) - period_ms*1000000` is fed into
the running statistics and the histogram; then `last_now_ns = now_ns`;
finally the run-count policy decides whether the timer is restarted
(`runcount > 0`: decrement and restart; `== 0`: no restart; `< 0`:
restart). -/
def lattest_timer_function (s : LatState) (now_ns : Int) : LatState × hrtimer_restart :=
  let diff_ns := now_ns - s.last_now_ns - (s.period_ms * 1000000 : Nat)
  let s := if s.last_now_ns ≠ 0 then hist_update (stat_update s diff_ns) diff_ns else s
  let s := { s with last_now_ns := now_ns }
  if s.runcount > 0 then ({ s with runcount := s.runcount - 1 }, .HRTIMER_RESTART)
  else if s.runcount = 0 then (s, .HRTIMER_NORESTART)
  else (s, .HRTIMER_RESTART)

/-- Callback `store_period_cb` from `part_000`, after `kstrtouint` parsing: fails
with `-EINVAL` if the timer is running (`runcount != 0`) or if the new
period exceeds 1000 ms; otherwise stores the new period. -/
def store_period_cb (s : LatState) (new_period : Nat) : LatState × CbResult :=
  if s.runcount ≠ 0 then (s, .einval)
  else if new_period > 1000 then (s, .einval)
  else ({ s with period_ms := new_period }, .ok)

/-- A parsed write to the `control` sysfs attribute: `"stop"`,
`"infinite"`, or a number (`kstrtoint` result). -/
inductive ControlCmd where
  | stop
  | infinite
  | finite (n : Int)
deriving DecidableEq, Repr

/-- The statistics-reset block of `store_control_cb`: `last_now_ns = 0`
(denoting the first run), min/max to the sentinels, counters to zero,
histogram cleared by `memset`. -/
def reset_statistics (s : LatState) : LatState :=
  { s with
    last_now_ns := 0
    stat_min := LLONG_MAX
    stat_max := LLONG_MIN
    stat_num := 0
    stat_sum := 0
    stat_sumsq := 0
    histogram := List.replicate HIST_BIN_MAX 0 }

/-- Callback `store_control_cb` from `part_000`, after parsing: `"stop"` always
succeeds and just sets `runcount = 0`; `"infinite"` and a positive count
fail with `-EINVAL` if the timer is already running, otherwise set
`runcount` (-1 for infinite), reset the statistics and start the timer. -/
def store_control_cb (s : LatState) (cmd : ControlCmd) : LatState × CbResult :=
  match cmd with
  | .stop => ({ s with runcount := 0 }, .ok)
  | .infinite =>
    if s.runcount ≠ 0 then (s, .einval)
    else (reset_statistics { s with runcount := -1 }, .ok)
  | .finite n =>
    if s.runcount ≠ 0 then (s, .einval)
    else if n ≤ 0 then (s, .einval)
    else (reset_statistics { s with runcount := n }, .ok)

/-- Callback `store_config_cb` from `part_000`: rejects with `-EINVAL` while the
timer is running; otherwise the body is `// TODO: implement` followed by
`return 0` — the requested bin count and width are ignored and nothing is
stored or cleared. -/
def store_config_cb (s : LatState) (new_bin_num new_bin_width : Int) : LatState × CbResult :=
  if s.runcount ≠ 0 then (s, .einval)
  else (s, .ok)

/-- The module state after `lattest_init`: globals are zero-initialised
(static storage), then the defaults `runcount = 0`, `period_ms = 10`,
`hist_bin_num = 20`, `hist_bin_width = 1000` are set. -/
def initState : LatState :=
  { period_ms := 10
    runcount := 0
    last_now_ns := 0
    hist_bin_num := 20
    hist_bin_width := 1000
    stat_min := 0
    stat_max := 0
    stat_num := 0
    stat_sum := 0
    stat_sumsq := 0
    histogram := List.replicate HIST_BIN_MAX 0 }

/-- Runs `k` consecutive firings of the timer callback, the `i`-th at observed
time `ts i`; the returned restart requests are dropped (the hrtimer keeps
delivering firings as long as the callback was restarted or restarted
again by `store_control_cb`). -/
def runFires (s : LatState) (ts : Nat → Int) : Nat → LatState
  | 0 => s
  | k + 1 => (lattest_timer_function (runFires s ts k) (ts k)).1

/-- State of the intermediate revision (`src/lattest/lattest.c`):
`HIST_BIN_NUM = 20` fixed bins of width `2^HIST_BIN_LSBS = 1024` ns. -/
structure LatCState where
  period_ms : Nat
  runcount : Int
  last_now_ns : Int
  histogram : List Nat
  hist_min : Int
  hist_max : Int
deriving DecidableEq, Repr

/-- Function `lattest_timer_function` from `src/lattest/lattest.c`.  Note the
statement order of the source: `last_now_ns = now_ns;` is executed
*before* the `if (last_now_ns != 0)` guard and before
`diff_ns = now_ns - last_now_ns`, so the guard tests the already-updated
value and the raw difference is always 0.  `diff_ns >> HIST_BIN_LSBS` is
an arithmetic shift, i.e. floor division by 1024. -/
def lattest_c_timer_function (s : LatCState) (now_ns : Int) : LatCState × hrtimer_restart :=
  let s := { s with last_now_ns := now_ns }
  let s : LatCState :=
    if s.last_now_ns ≠ 0 then
      let diff_ns := now_ns - s.last_now_ns
      let diff_ns := diff_ns - (s.period_ms * 1000000 : Nat)
      let hist_bin := diff_ns / 1024 + (20 / 2 : Int)
      let hist_bin := if hist_bin < 0 then 0 else hist_bin
      let hist_bin := if hist_bin > 20 - 1 then 20 - 1 else hist_bin
      let idx := hist_bin.toNat
      { s with
        histogram := s.histogram.set idx ((s.histogram.getD idx 0 + 1) % 2 ^ 32)
        hist_min := if diff_ns < s.hist_min then diff_ns else s.hist_min
        hist_max := if diff_ns > s.hist_max then diff_ns else s.hist_max }
    else s
  if s.runcount > 0 then ({ s with runcount := s.runcount - 1 }, .HRTIMER_RESTART)
  else if s.runcount = 0 then (s, .HRTIMER_NORESTART)
  else (s, .HRTIMER_RESTART)

/-- Modelled from the spec (claim side): the integer nearest to `√x`, ties
rounded up, expressed through `Nat.sqrt`: round up exactly when the
remainder `x - sqrt x ^ 2` exceeds `sqrt x`. -/
def isqrtRounded_spec (x : Nat) : Nat :=
  if Nat.sqrt x * Nat.sqrt x + Nat.sqrt x < x then Nat.sqrt x + 1 else Nat.sqrt x

example : isqrtu64 7 = 3 := by decide
example : isqrtu64 8 = 3 := by decide
example : div_ll (-7) 2 = -3 := by decide
example : div_ll 7 (-2) = -3 := by decide
example : HIST_BIN_LOW 20 1000 0 = -10000 := by decide
example : HIST_BIN_LOW 19 1000 0 = -9500 := by decide
example : hist_bin_index 20 1000 0 = 10 := by decide
example : hist_bin_index 20 1000 300000 = 19 := by decide

/-! ## Helper lemmas -/

/-- C7 counterexample: `signedDiv` is *not* truncating division toward zero
for every nonzero divisor.  `do_div` narrows the divisor to `uint32`, so
for `d = 2^32 + 1` the code divides by `1`: `div_ll(2^32+2, 2^32+1)`
returns `2^32+2` while truncating division yields `1`. -/
theorem claim_C7_counterexample :
    div_ll 4294967298 4294967297 ≠ Int.tdiv 4294967298 4294967297 := by decide

/-- C7 (amended): for every `n` and every `d ≠ 0` whose absolute value fits
in 32 bits (the width `do_div` actually uses for the divisor), `div_ll n d`
is exactly truncating division toward zero, dividing the absolute values
and restoring the sign from `sign(n) XOR sign(d)`; the discarded remainder
satisfies `tdiv * d + tmod = n`. -/
theorem claim_C7_signed_div (n d : Int) (hd : d ≠ 0) (hsmall : d.natAbs < 2 ^ 32) :
    div_ll n d = Int.tdiv n d ∧ Int.tdiv n d * d + Int.tmod n d = n := by
  constructor
  · unfold div_ll
    rw [Nat.mod_eq_of_lt hsmall]
    have hnat : ∀ m : Nat, ¬((m : Int) < 0) := fun m => by omega
    rcases n with a | a <;> rcases d with b | b <;>
      simp [Int.tdiv, Int.negSucc_lt_zero, hnat]
  · rw [mul_comm]
    exact Int.tdiv_add_tmod n d

/-- C7 witness: the amended theorem at the claim's own examples
`signedDiv(-7, 2) = -3` and `signedDiv(7, -2) = -3`. -/
theorem claim_C7_witness :
    (div_ll (-7) 2 = Int.tdiv (-7) 2 ∧ Int.tdiv (-7) 2 * 2 + Int.tmod (-7) 2 = -7) ∧
    (div_ll 7 (-2) = Int.tdiv 7 (-2) ∧ Int.tdiv 7 (-2) * (-2) + Int.tmod 7 (-2) = 7) ∧
    div_ll (-7) 2 = -3 ∧ div_ll 7 (-2) = -3 :=
  ⟨claim_C7_signed_div (-7) 2 (by decide) (by decide),
   claim_C7_signed_div 7 (-2) (by decide) (by decide),
   by decide, by decide⟩

/-! ## C4: bin lower-bound formula -/

/-- C4: for every valid configuration `1 ≤ binCount ≤ 256`, `binWidth > 0`,
the single macro `HIST_BIN_LOW` reproduces the intended layout: consecutive
lower bounds differ by exactly `binWidth`; for even `binCount` the bin
`binCount/2` starts at 0; for odd `binCount` the bin `(binCount-1)/2`
starts at `-binWidth/2` (floor division, as the two's-complement shift
`hist_bin_width>>1` computes). -/
theorem claim_C4_bin_layout (B W : Int) (hB1 : 1 ≤ B) (hB2 : B ≤ 256) (hW : 0 < W) :
    (∀ i : Int, HIST_BIN_LOW B W (i + 1) - HIST_BIN_LOW B W i = W) ∧
    (B % 2 = 0 → HIST_BIN_LOW B W (B / 2) = 0) ∧
    (B % 2 = 1 → HIST_BIN_LOW B W ((B - 1) / 2) = (-W) / 2) := by
  refine ⟨fun i => by unfold HIST_BIN_LOW; ring, fun h => ?_, fun h => ?_⟩
  · unfold HIST_BIN_LOW
    have h2 : (B + 1) / 2 = B / 2 := by omega
    rw [h, h2]
    ring
  · unfold HIST_BIN_LOW
    have h2 : (B + 1) / 2 = (B - 1) / 2 + 1 := by omega
    rw [h, h2]
    have h3 : W / 2 * 1 + ((B - 1) / 2 - ((B - 1) / 2 + 1)) * W = W / 2 - W := by ring
    rw [h3]
    omega

/-- C4 witness: the layout properties at the default configuration
`binCount = 20`, `binWidth = 1000` (and, via a second application, at the
odd configuration `binCount = 19`). -/
theorem claim_C4_witness :
    ((∀ i : Int, HIST_BIN_LOW 20 1000 (i + 1) - HIST_BIN_LOW 20 1000 i = 1000) ∧
      ((20 : Int) % 2 = 0 → HIST_BIN_LOW 20 1000 (20 / 2) = 0) ∧
      ((20 : Int) % 2 = 1 → HIST_BIN_LOW 20 1000 ((20 - 1) / 2) = (-1000) / 2)) ∧
    ((19 : Int) % 2 = 1 → HIST_BIN_LOW 19 1000 ((19 - 1) / 2) = (-1000) / 2) :=
  ⟨claim_C4_bin_layout 20 1000 (by decide) (by decide) (by decide),
   (claim_C4_bin_layout 19 1000 (by decide) (by decide) (by decide)).2.2⟩

/-! ## C9: setPeriod guard -/

/-- C9: `store_period_cb` while running (`runcount ≠ 0`) fails with
`-EINVAL` and leaves the state (in particular the configured period)
unchanged; while idle it stores a period ≤ 1000 ms and succeeds, and
rejects a period > 1000 ms leaving the state unchanged. -/
theorem claim_C9_set_period (s : LatState) (new_period : Nat) :
    (s.runcount ≠ 0 → store_period_cb s new_period = (s, .einval)) ∧
    (s.runcount = 0 → new_period ≤ 1000 →
      store_period_cb s new_period = ({ s with period_ms := new_period }, .ok)) ∧
    (s.runcount = 0 → 1000 < new_period → store_period_cb s new_period = (s, .einval)) := by
  refine ⟨fun h => ?_, fun h h2 => ?_, fun h h2 => ?_⟩
  · simp [store_period_cb, h]
  · simp [store_period_cb, h]
    omega
  · simp [store_period_cb, h]
    omega

/-- C9 witness: the three cases at concrete states: running with
`runcount = 3`, idle storing 20 ms, idle rejecting 2000 ms. -/
theorem claim_C9_witness :
    store_period_cb { initState with runcount := 3 } 20 =
      ({ initState with runcount := 3 }, .einval) ∧
    store_period_cb initState 20 = ({ initState with period_ms := 20 }, .ok) ∧
    store_period_cb initState 2000 = (initState, .einval) :=
  ⟨(claim_C9_set_period { initState with runcount := 3 } 20).1 (by decide),
   (claim_C9_set_period initState 20).2.1 (by decide) (by decide),
   (claim_C9_set_period initState 2000).2.2 (by decide) (by decide)⟩

/-! ## C10: clamped bin index stays in bounds -/

/-- C10: for every jitter value and configuration with
`1 ≤ hist_bin_num ≤ 256`, the bin index computed in the timer function is,
after the two clamping steps, within `[0, hist_bin_num - 1]`, so the
histogram increment never indexes outside the `HIST_BIN_MAX = 256` entry
array. -/
theorem claim_C10_bin_bounds (B W jitter : Int) (h1 : 1 ≤ B) (h2 : B ≤ 256) :
    0 ≤ hist_bin_index B W jitter ∧ hist_bin_index B W jitter < B ∧
    (hist_bin_index B W jitter).toNat < HIST_BIN_MAX := by
  unfold hist_bin_index HIST_BIN_MAX
  dsimp only
  split_ifs <;> omega

/-- C10 witness: the bounds at the default configuration for an
out-of-range jitter of 300000 ns. -/
theorem claim_C10_witness :
    0 ≤ hist_bin_index 20 1000 300000 ∧ hist_bin_index 20 1000 300000 < 20 ∧
    (hist_bin_index 20 1000 300000).toNat < HIST_BIN_MAX :=
  claim_C10_bin_bounds 20 1000 300000 (by decide) (by decide)

/-! ## C3: histogram configuration -/

/-- C3 (code bug): `store_config_cb` rejects with `-EINVAL` while the timer
runs, but in the idle case the body is `// TODO: implement` + `return 0` —
the callback reports success without replacing `hist_bin_num`/
`hist_bin_width` (they keep the values 20 and 1000 here) and without
clearing the bins, contradicting the claimed configure semantics. -/
theorem claim_C3_config_todo :
    (store_config_cb initState 100 5000 = (initState, .ok) ∧
      initState.hist_bin_num = 20 ∧ initState.hist_bin_width = 1000) ∧
    store_config_cb { initState with runcount := 5 } 100 5000 =
      ({ initState with runcount := 5 }, .einval) := by
  refine ⟨⟨?_, by decide, by decide⟩, ?_⟩
  · simp [store_config_cb, initState]
  · simp [store_config_cb]

/-! ## Projection lemmas for the timer step -/

@[simp] theorem stat_update_runcount (s : LatState) (d : Int) :
    (stat_update s d).runcount = s.runcount := rfl

@[simp] theorem stat_update_last (s : LatState) (d : Int) :
    (stat_update s d).last_now_ns = s.last_now_ns := rfl

@[simp] theorem stat_update_period (s : LatState) (d : Int) :
    (stat_update s d).period_ms = s.period_ms := rfl

@[simp] theorem stat_update_bin_num (s : LatState) (d : Int) :
    (stat_update s d).hist_bin_num = s.hist_bin_num := rfl

@[simp] theorem stat_update_bin_width (s : LatState) (d : Int) :
    (stat_update s d).hist_bin_width = s.hist_bin_width := rfl

@[simp] theorem stat_update_num (s : LatState) (d : Int) :
    (stat_update s d).stat_num = s.stat_num + 1 := rfl

@[simp] theorem stat_update_sum (s : LatState) (d : Int) :
    (stat_update s d).stat_sum = s.stat_sum + d := rfl

@[simp] theorem stat_update_sumsq (s : LatState) (d : Int) :
    (stat_update s d).stat_sumsq = s.stat_sumsq + d * d := rfl

@[simp] theorem stat_update_histogram (s : LatState) (d : Int) :
    (stat_update s d).histogram = s.histogram := rfl

@[simp] theorem hist_update_runcount (s : LatState) (d : Int) :
    (hist_update s d).runcount = s.runcount := rfl

@[simp] theorem hist_update_last (s : LatState) (d : Int) :
    (hist_update s d).last_now_ns = s.last_now_ns := rfl

@[simp] theorem hist_update_period (s : LatState) (d : Int) :
    (hist_update s d).period_ms = s.period_ms := rfl

@[simp] theorem hist_update_bin_num (s : LatState) (d : Int) :
    (hist_update s d).hist_bin_num = s.hist_bin_num := rfl

@[simp] theorem hist_update_bin_width (s : LatState) (d : Int) :
    (hist_update s d).hist_bin_width = s.hist_bin_width := rfl

@[simp] theorem hist_update_num (s : LatState) (d : Int) :
    (hist_update s d).stat_num = s.stat_num := rfl

@[simp] theorem hist_update_sum (s : LatState) (d : Int) :
    (hist_update s d).stat_sum = s.stat_sum := rfl

@[simp] theorem hist_update_sumsq (s : LatState) (d : Int) :
    (hist_update s d).stat_sumsq = s.stat_sumsq := rfl

theorem hist_update_histogram (s : LatState) (d : Int) :
    (hist_update s d).histogram =
      s.histogram.set (hist_bin_index s.hist_bin_num s.hist_bin_width d).toNat
        ((s.histogram.getD (hist_bin_index s.hist_bin_num s.hist_bin_width d).toNat 0 + 1)
          % 2 ^ 32) := rfl

/-- The jitter sample computed by the timer step. -/
def fire_diff (s : LatState) (now_ns : Int) : Int :=
  now_ns - s.last_now_ns - (s.period_ms * 1000000 : Nat)

theorem fire_runcount (s : LatState) (now_ns : Int) :
    ((lattest_timer_function s now_ns).1).runcount =
      if 0 < s.runcount then s.runcount - 1 else s.runcount := by
  unfold lattest_timer_function
  dsimp only
  by_cases h1 : s.last_now_ns ≠ 0 <;> simp [h1] <;> split_ifs <;> simp_all

theorem fire_last (s : LatState) (now_ns : Int) :
    ((lattest_timer_function s now_ns).1).last_now_ns = now_ns := by
  unfold lattest_timer_function
  dsimp only
  by_cases h1 : s.last_now_ns ≠ 0 <;> simp [h1] <;> split_ifs <;> simp_all

theorem fire_num (s : LatState) (now_ns : Int) :
    ((lattest_timer_function s now_ns).1).stat_num =
      if s.last_now_ns ≠ 0 then s.stat_num + 1 else s.stat_num := by
  unfold lattest_timer_function
  dsimp only
  by_cases h1 : s.last_now_ns ≠ 0 <;> simp [h1] <;> split_ifs <;> simp_all

theorem fire_sum (s : LatState) (now_ns : Int) :
    ((lattest_timer_function s now_ns).1).stat_sum =
      if s.last_now_ns ≠ 0 then s.stat_sum + fire_diff s now_ns else s.stat_sum := by
  unfold lattest_timer_function fire_diff
  dsimp only
  by_cases h1 : s.last_now_ns ≠ 0 <;> simp [h1] <;> split_ifs <;> simp_all

theorem fire_sumsq (s : LatState) (now_ns : Int) :
    ((lattest_timer_function s now_ns).1).stat_sumsq =
      if s.last_now_ns ≠ 0 then s.stat_sumsq + fire_diff s now_ns * fire_diff s now_ns
      else s.stat_sumsq := by
  unfold lattest_timer_function fire_diff
  dsimp only
  by_cases h1 : s.last_now_ns ≠ 0 <;> simp [h1] <;> split_ifs <;> simp_all

theorem fire_bin_num (s : LatState) (now_ns : Int) :
    ((lattest_timer_function s now_ns).1).hist_bin_num = s.hist_bin_num := by
  unfold lattest_timer_function
  dsimp only
  by_cases h1 : s.last_now_ns ≠ 0 <;> simp [h1] <;> split_ifs <;> simp_all

theorem fire_bin_width (s : LatState) (now_ns : Int) :
    ((lattest_timer_function s now_ns).1).hist_bin_width = s.hist_bin_width := by
  unfold lattest_timer_function
  dsimp only
  by_cases h1 : s.last_now_ns ≠ 0 <;> simp [h1] <;> split_ifs <;> simp_all

theorem fire_period (s : LatState) (now_ns : Int) :
    ((lattest_timer_function s now_ns).1).period_ms = s.period_ms := by
  unfold lattest_timer_function
  dsimp only
  by_cases h1 : s.last_now_ns ≠ 0 <;> simp [h1] <;> split_ifs <;> simp_all

theorem fire_histogram (s : LatState) (now_ns : Int) :
    ((lattest_timer_function s now_ns).1).histogram =
      if s.last_now_ns ≠ 0 then
        s.histogram.set
          (hist_bin_index s.hist_bin_num s.hist_bin_width (fire_diff s now_ns)).toNat
          ((s.histogram.getD
            (hist_bin_index s.hist_bin_num s.hist_bin_width (fire_diff s now_ns)).toNat 0 + 1)
            % 2 ^ 32)
      else s.histogram := by
  unfold lattest_timer_function fire_diff
  dsimp only
  by_cases h1 : s.last_now_ns ≠ 0 <;> simp [h1, hist_update_histogram] <;> split_ifs <;> simp_all

theorem fire_ret (s : LatState) (now_ns : Int) :
    (lattest_timer_function s now_ns).2 =
      if 0 < s.runcount then .HRTIMER_RESTART
      else if s.runcount = 0 then .HRTIMER_NORESTART
      else .HRTIMER_RESTART := by
  unfold lattest_timer_function
  dsimp only
  by_cases h1 : s.last_now_ns ≠ 0 <;> simp [h1] <;> split_ifs <;> simp_all

/-! ## C1: finite run behaviour -/

theorem store_control_finite_fst (s0 : LatState) (n : Int) (h0 : s0.runcount = 0)
    (hn : 0 < n) :
    store_control_cb s0 (.finite n) = (reset_statistics { s0 with runcount := n }, .ok) := by
  simp [store_control_cb, h0, not_le.mpr hn]

theorem runFires_finite_inv (s0 : LatState) (n : Nat) (ts : Nat → Int)
    (hts : ∀ k, ts k ≠ 0) (hn : 1 ≤ n) :
    ∀ k, k ≤ n →
      (runFires (reset_statistics { s0 with runcount := (n : Int) }) ts k).runcount =
        (n : Int) - k ∧
      (runFires (reset_statistics { s0 with runcount := (n : Int) }) ts k).stat_num =
        (if k = 0 then 0 else (k : Int) - 1) ∧
      (runFires (reset_statistics { s0 with runcount := (n : Int) }) ts k).last_now_ns =
        (if k = 0 then 0 else ts (k - 1)) := by
  intro k
  induction k with
  | zero =>
    intro _
    simp [runFires, reset_statistics]
  | succ k ih =>
    intro hk
    have hk' : k ≤ n := Nat.le_of_succ_le hk
    obtain ⟨hrc, hnum, hlast⟩ := ih hk'
    have hpos : 0 < (runFires (reset_statistics { s0 with runcount := (n : Int) }) ts k).runcount := by
      rw [hrc]; omega
    refine ⟨?_, ?_, ?_⟩
    · show ((lattest_timer_function _ (ts k)).1).runcount = _
      rw [fire_runcount, if_pos hpos, hrc]
      push_cast
      ring
    · show ((lattest_timer_function _ (ts k)).1).stat_num = _
      rw [fire_num, hnum]
      rcases Nat.eq_zero_or_pos k with h | h
      · subst h
        rw [hlast]
        simp
      · rw [if_pos, if_neg (by omega), if_neg (by omega)]
        · push_cast; omega
        · rw [hlast, if_neg (by omega)]
          exact hts (k - 1)
    · show ((lattest_timer_function _ (ts k)).1).last_now_ns = _
      rw [fire_last, if_neg (by omega)]
      simp

/-- C1 (amended): starting a `Finite(n)` run (`n ≥ 1`) from an idle state:
after exactly `n` firings `runcount = 0` (the status reads "stopped") and
`stat_num = n - 1` (the first firing produces no jitter sample), exactly as
the claim's scenario states for `n = 5`; *but* the `n`-th firing still
returns `HRTIMER_RESTART` (the policy is check-then-decrement, so
`Finite(1)` decrements to 0 and reschedules rather than returning `Stop`).
The timer therefore fires an `(n+1)`-th time, which records an `n`-th
jitter sample and only then returns `HRTIMER_NORESTART`. -/
theorem claim_C1_finite_run (n : Nat) (hn : 1 ≤ n) (s0 : LatState) (ts : Nat → Int)
    (h0 : s0.runcount = 0) (hts : ∀ k, ts k ≠ 0) :
    (runFires (store_control_cb s0 (.finite (n : Int))).1 ts n).runcount = 0 ∧
    (runFires (store_control_cb s0 (.finite (n : Int))).1 ts n).stat_num = (n : Int) - 1 ∧
    (lattest_timer_function (runFires (store_control_cb s0 (.finite (n : Int))).1 ts (n - 1))
        (ts (n - 1))).2 = .HRTIMER_RESTART ∧
    (lattest_timer_function (runFires (store_control_cb s0 (.finite (n : Int))).1 ts n)
        (ts n)).2 = .HRTIMER_NORESTART ∧
    (runFires (store_control_cb s0 (.finite (n : Int))).1 ts (n + 1)).stat_num = (n : Int) := by
  have hstart := store_control_finite_fst s0 (n : Int) h0 (by exact_mod_cast hn)
  rw [hstart]
  dsimp only
  have hinv := runFires_finite_inv s0 n ts hts hn
  obtain ⟨hrc_n, hnum_n, hlast_n⟩ := hinv n le_rfl
  obtain ⟨hrc_n1, _, _⟩ := hinv (n - 1) (Nat.sub_le n 1)
  refine ⟨by rw [hrc_n]; omega, by rw [hnum_n, if_neg (by omega)], ?_, ?_, ?_⟩
  · rw [fire_ret, if_pos]
    rw [hrc_n1]
    have : ((n - 1 : Nat) : Int) = (n : Int) - 1 := by omega
    omega
  · rw [fire_ret, if_neg (by rw [hrc_n]; omega), if_pos (by rw [hrc_n]; omega)]
  · show ((lattest_timer_function _ (ts n)).1).stat_num = _
    rw [fire_num, if_pos, hnum_n, if_neg (by omega)]
    · omega
    · rw [hlast_n, if_neg (by omega)]
      exact hts (n - 1)

/-- C1 counterexample: in a `Finite(5)` run started from the module's
initial state, the fifth firing does *not* leave the timer unrestarted:
it returns `HRTIMER_RESTART` (a sixth firing follows). -/
theorem claim_C1_counterexample :
    (lattest_timer_function
        (runFires (store_control_cb initState (.finite 5)).1
          (fun k => ((k : Int) + 1) * 10000000) 4)
        (((4 : Int) + 1) * 10000000)).2 ≠ .HRTIMER_NORESTART := by decide

/-- C1 witness: the amended theorem at the claim's concrete scenario
(`Finite(5)`, fire times 10 ms apart). -/
theorem claim_C1_witness :
    (runFires (store_control_cb initState (.finite ((5 : Nat) : Int))).1
        (fun k => ((k : Int) + 1) * 10000000) 5).runcount = 0 ∧
    (runFires (store_control_cb initState (.finite ((5 : Nat) : Int))).1
        (fun k => ((k : Int) + 1) * 10000000) 5).stat_num = ((5 : Nat) : Int) - 1 ∧
    (lattest_timer_function
        (runFires (store_control_cb initState (.finite ((5 : Nat) : Int))).1
          (fun k => ((k : Int) + 1) * 10000000) (5 - 1))
        ((((5 - 1 : Nat) : Int) + 1) * 10000000)).2 = .HRTIMER_RESTART ∧
    (lattest_timer_function
        (runFires (store_control_cb initState (.finite ((5 : Nat) : Int))).1
          (fun k => ((k : Int) + 1) * 10000000) 5)
        ((((5 : Nat) : Int) + 1) * 10000000)).2 = .HRTIMER_NORESTART ∧
    (runFires (store_control_cb initState (.finite ((5 : Nat) : Int))).1
        (fun k => ((k : Int) + 1) * 10000000) (5 + 1)).stat_num = ((5 : Nat) : Int) :=
  claim_C1_finite_run 5 (by decide) initState (fun k => ((k : Int) + 1) * 10000000)
    (by decide) (fun k => by dsimp only; omega)

/-! ## C6: histogram bins sum to the number of recorded samples -/

theorem hist_bin_index_toNat_lt (B W jitter : Int) (h1 : 1 ≤ B) (h2 : B ≤ 256) :
    (hist_bin_index B W jitter).toNat < 256 := by
  unfold hist_bin_index
  dsimp only
  split_ifs <;> omega

theorem sum_set_add (l : List Nat) (i w : Nat) (h : i < l.length) :
    (l.set i w).sum + l.getD i 0 = l.sum + w := by
  induction l generalizing i with
  | nil => simp at h
  | cons a t ih =>
    cases i with
    | zero => simp; omega
    | succ j =>
      simp only [List.set_cons_succ, List.sum_cons, List.getD_cons_succ]
      have := ih j (by simpa using h)
      omega

theorem getD_set_eq_of_lt (l : List Nat) (i w : Nat) (h : i < l.length) :
    (l.set i w).getD i 0 = w := by
  induction l generalizing i with
  | nil => simp at h
  | cons a t ih =>
    cases i with
    | zero => simp
    | succ j =>
      simp only [List.set_cons_succ, List.getD_cons_succ]
      exact ih j (by simpa using h)

theorem getD_set_ne (l : List Nat) (i j w : Nat) (h : i ≠ j) :
    (l.set i w).getD j 0 = l.getD j 0 := by
  induction l generalizing i j with
  | nil => simp
  | cons a t ih =>
    cases i with
    | zero =>
      cases j with
      | zero => exact absurd rfl h
      | succ j2 => simp
    | succ i2 =>
      cases j with
      | zero => simp
      | succ j2 =>
        simp only [List.set_cons_succ, List.getD_cons_succ]
        exact ih i2 j2 (by omega)

@[simp] theorem reset_statistics_histogram (s : LatState) :
    (reset_statistics s).histogram = List.replicate HIST_BIN_MAX 0 := rfl

@[simp] theorem reset_statistics_num (s : LatState) :
    (reset_statistics s).stat_num = 0 := rfl

@[simp] theorem reset_statistics_sum (s : LatState) :
    (reset_statistics s).stat_sum = 0 := rfl

@[simp] theorem reset_statistics_sumsq (s : LatState) :
    (reset_statistics s).stat_sumsq = 0 := rfl

@[simp] theorem reset_statistics_last (s : LatState) :
    (reset_statistics s).last_now_ns = 0 := rfl

@[simp] theorem reset_statistics_bin_num (s : LatState) :
    (reset_statistics s).hist_bin_num = s.hist_bin_num := rfl

@[simp] theorem reset_statistics_bin_width (s : LatState) :
    (reset_statistics s).hist_bin_width = s.hist_bin_width := rfl

@[simp] theorem reset_statistics_runcount (s : LatState) :
    (reset_statistics s).runcount = s.runcount := rfl

theorem store_control_ok_shape (s0 : LatState) (cmd : ControlCmd)
    (hcmd : cmd ≠ .stop) (hok : (store_control_cb s0 cmd).2 = .ok) :
    ∃ rc : Int, (store_control_cb s0 cmd).1 = reset_statistics { s0 with runcount := rc } := by
  cases cmd with
  | stop => exact absurd rfl hcmd
  | infinite =>
    by_cases hrc : s0.runcount ≠ 0
    · simp [store_control_cb, hrc] at hok
    · exact ⟨-1, by simp [store_control_cb, hrc]⟩
  | finite n =>
    by_cases hrc : s0.runcount ≠ 0
    · simp [store_control_cb, hrc] at hok
    · by_cases hn : n ≤ 0
      · simp [store_control_cb, hrc, hn] at hok
      · exact ⟨n, by simp [store_control_cb, hrc, hn]⟩

theorem runFires_hist_sum (s1 : LatState) (ts : Nat → Int)
    (hB1 : 1 ≤ s1.hist_bin_num) (hB2 : s1.hist_bin_num ≤ 256)
    (hlen : s1.histogram.length = 256)
    (hsum : ∃ m : Nat, s1.stat_num.toNat = s1.histogram.sum + 2 ^ 32 * m)
    (hnn : 0 ≤ s1.stat_num) (hbnd : ∀ i, s1.histogram.getD i 0 < 2 ^ 32) :
    ∀ k, (∃ m : Nat, ((runFires s1 ts k).stat_num).toNat =
        (runFires s1 ts k).histogram.sum + 2 ^ 32 * m) ∧
      0 ≤ (runFires s1 ts k).stat_num ∧ (runFires s1 ts k).histogram.length = 256 ∧
      (runFires s1 ts k).hist_bin_num = s1.hist_bin_num ∧
      (∀ i, (runFires s1 ts k).histogram.getD i 0 < 2 ^ 32) := by
  intro k
  induction k with
  | zero => exact ⟨hsum, hnn, hlen, rfl, hbnd⟩
  | succ k ih =>
    obtain ⟨⟨m, ihsum⟩, ihnn, ihlen, ihbn, ihbnd⟩ := ih
    have hstep : runFires s1 ts (k + 1) = (lattest_timer_function (runFires s1 ts k) (ts k)).1 := rfl
    rw [hstep, fire_histogram, fire_num, fire_bin_num]
    set sk := runFires s1 ts k with hsk
    by_cases h1 : sk.last_now_ns ≠ 0
    · rw [if_pos h1, if_pos h1]
      set idx := (hist_bin_index sk.hist_bin_num sk.hist_bin_width
        (fire_diff sk (ts k))).toNat with hidxdef
      have hidx : idx < 256 := by
        apply hist_bin_index_toNat_lt
        · rw [ihbn]; exact hB1
        · rw [ihbn]; exact hB2
      have hidx' : idx < sk.histogram.length := by rw [ihlen]; exact hidx
      have hv := ihbnd idx
      have hset := sum_set_add sk.histogram idx ((sk.histogram.getD idx 0 + 1) % 2 ^ 32) hidx'
      refine ⟨?_, by omega, by simpa using ihlen, ihbn, ?_⟩
      · by_cases hwrap : sk.histogram.getD idx 0 + 1 < 2 ^ 32
        · exact ⟨m, by omega⟩
        · exact ⟨m + 1, by omega⟩
      · intro i
        by_cases hij : idx = i
        · rw [← hij, getD_set_eq_of_lt _ _ _ hidx']
          omega
        · rw [getD_set_ne _ _ _ _ hij]
          exact ihbnd i
    · rw [if_neg h1, if_neg h1]
      exact ⟨⟨m, ihsum⟩, ihnn, ihlen, ihbn, ihbnd⟩

/-- C6 (amended): after a (re)start and any sequence of timer firings, the
sum of all histogram bin counters is congruent to the running-statistics
count `stat_num` mod 2^32 (the bins are C `unsigned int` and wrap), and it
equals `stat_num` exactly whenever fewer than 2^32 samples have been
recorded since the reset.  Every recorded sample does increment exactly
one bin — every out-of-range index is clamped into bin 0 or bin
`hist_bin_num - 1` — so within the first 2^32 samples none is dropped.
Holds for any start command that succeeds (`"infinite"` or a positive
count) and any valid bin configuration `1 ≤ hist_bin_num ≤ 256`. -/
theorem claim_C6_hist_sum (s0 : LatState) (cmd : ControlCmd) (ts : Nat → Int) (k : Nat)
    (hB1 : 1 ≤ s0.hist_bin_num) (hB2 : s0.hist_bin_num ≤ 256)
    (hcmd : cmd ≠ .stop) (hok : (store_control_cb s0 cmd).2 = .ok) :
    (∃ m : Nat, ((runFires (store_control_cb s0 cmd).1 ts k).stat_num).toNat =
      ((runFires (store_control_cb s0 cmd).1 ts k).histogram).sum + 2 ^ 32 * m) ∧
    0 ≤ (runFires (store_control_cb s0 cmd).1 ts k).stat_num ∧
    ((runFires (store_control_cb s0 cmd).1 ts k).stat_num < 2 ^ 32 →
      ((runFires (store_control_cb s0 cmd).1 ts k).histogram).sum =
        ((runFires (store_control_cb s0 cmd).1 ts k).stat_num).toNat) := by
  obtain ⟨rc, hshape⟩ := store_control_ok_shape s0 cmd hcmd hok
  rw [hshape]
  have h := runFires_hist_sum (reset_statistics { s0 with runcount := rc }) ts
    (by simp only [reset_statistics_bin_num]; exact hB1)
    (by simp only [reset_statistics_bin_num]; exact hB2)
    (by rw [reset_statistics_histogram, List.length_replicate]; rfl)
    (⟨0, by rw [reset_statistics_histogram, reset_statistics_num, List.sum_replicate]; simp⟩)
    (by simp)
    (by
      intro i
      rw [reset_statistics_histogram]
      rcases Nat.lt_or_ge i (List.replicate HIST_BIN_MAX (0 : Nat)).length with hi | hi
      · rw [List.getD_eq_getElem _ _ hi]
        simp
      · rw [List.getD_eq_default _ _ hi]
        positivity) k
  obtain ⟨⟨m, hm⟩, hnn, _, _, _⟩ := h
  refine ⟨⟨m, hm⟩, hnn, fun hlt => ?_⟩
  have : ((runFires (reset_statistics { s0 with runcount := rc }) ts k).stat_num).toNat < 2 ^ 32 := by
    omega
  omega

/-- C6 witness: the amended theorem after a `Finite(3)` start and three
firings 10 ms apart from the initial state: two samples recorded, bins
summing to 2. -/
theorem claim_C6_witness :
    (∃ m : Nat, ((runFires (store_control_cb initState (.finite 3)).1
        (fun k => ((k : Int) + 1) * 10000000) 3).stat_num).toNat =
      ((runFires (store_control_cb initState (.finite 3)).1
        (fun k => ((k : Int) + 1) * 10000000) 3).histogram).sum + 2 ^ 32 * m) ∧
    0 ≤ (runFires (store_control_cb initState (.finite 3)).1
        (fun k => ((k : Int) + 1) * 10000000) 3).stat_num ∧
    ((runFires (store_control_cb initState (.finite 3)).1
        (fun k => ((k : Int) + 1) * 10000000) 3).stat_num < 2 ^ 32 →
      ((runFires (store_control_cb initState (.finite 3)).1
        (fun k => ((k : Int) + 1) * 10000000) 3).histogram).sum =
        ((runFires (store_control_cb initState (.finite 3)).1
          (fun k => ((k : Int) + 1) * 10000000) 3).stat_num).toNat) :=
  claim_C6_hist_sum initState (.finite 3) (fun k => ((k : Int) + 1) * 10000000) 3
    (by decide) (by decide) (by decide) (by decide)

/-! ## C2: variance and standard deviation -/

set_option maxRecDepth 10000 in
theorem runFires_ones (ts : Nat → Int)
    (hts : ∀ j, ts j = ((j : Int) + 1) * 10000001) :
    ∀ k : Nat,
      (runFires (store_control_cb initState .infinite).1 ts (k + 1)).stat_num = (k : Int) ∧
      (runFires (store_control_cb initState .infinite).1 ts (k + 1)).stat_sum = (k : Int) ∧
      (runFires (store_control_cb initState .infinite).1 ts (k + 1)).stat_sumsq = (k : Int) ∧
      (runFires (store_control_cb initState .infinite).1 ts (k + 1)).last_now_ns =
        ((k : Int) + 1) * 10000001 ∧
      (runFires (store_control_cb initState .infinite).1 ts (k + 1)).histogram =
        (List.replicate 256 0).set 10 (k % 2 ^ 32) ∧
      (runFires (store_control_cb initState .infinite).1 ts (k + 1)).period_ms = 10 ∧
      (runFires (store_control_cb initState .infinite).1 ts (k + 1)).hist_bin_num = 20 ∧
      (runFires (store_control_cb initState .infinite).1 ts (k + 1)).hist_bin_width = 1000 := by
  intro k
  induction k with
  | zero =>
    have h1 : runFires (store_control_cb initState .infinite).1 ts 1 =
        (lattest_timer_function (store_control_cb initState .infinite).1 (ts 0)).1 := rfl
    rw [h1, hts 0]
    decide
  | succ k ih =>
    obtain ⟨hnum, hsum, hsq, hlast, hhist, hper, hbn, hbw⟩ := ih
    set S := runFires (store_control_cb initState .infinite).1 ts (k + 1) with hS
    have hstep : runFires (store_control_cb initState .infinite).1 ts (k + 1 + 1) =
        (lattest_timer_function S (ts (k + 1))).1 := rfl
    have hlne : S.last_now_ns ≠ 0 := by
      rw [hlast]
      omega
    have hdiff : fire_diff S (ts (k + 1)) = 1 := by
      unfold fire_diff
      rw [hlast, hper, hts (k + 1)]
      push_cast
      ring_nf
    refine ⟨?_, ?_, ?_, ?_, ?_, ?_, ?_, ?_⟩
    · rw [hstep, fire_num, if_pos hlne, hnum]
      push_cast
      ring
    · rw [hstep, fire_sum, if_pos hlne, hdiff, hsum]
      push_cast
      ring
    · rw [hstep, fire_sumsq, if_pos hlne, hdiff, hsq]
      push_cast
      ring
    · rw [hstep, fire_last, hts (k + 1)]
    · rw [hstep, fire_histogram, if_pos hlne, hdiff, hbn, hbw]
      have hbin : (hist_bin_index 20 1000 1).toNat = 10 := by decide
      rw [hbin, hhist]
      rw [getD_set_eq_of_lt _ _ _ (by rw [List.length_replicate]; omega)]
      rw [List.set_set]
      have e : (k % 2 ^ 32 + 1) % 2 ^ 32 = (k + 1) % 2 ^ 32 := by omega
      rw [e]
    · rw [hstep, fire_period, hper]
    · rw [hstep, fire_bin_num, hbn]
    · rw [hstep, fire_bin_width, hbw]

set_option maxRecDepth 10000 in
/-- C6 counterexample: the claim fails on a reachable defined-behaviour
state.  In infinite mode with every jitter sample equal to 1 ns (all
samples land in bin 10), after 2^32+2 firings `stat_num = 2^32+1` but the
`unsigned int` bin counter has wrapped mod 2^32 to 1, so the bin sum is 1,
not the number of recorded samples. -/
theorem claim_C6_counterexample :
    ((runFires (store_control_cb initState .infinite).1
        (fun j => ((j : Int) + 1) * 10000001) (4294967297 + 1)).histogram).sum ≠
      ((runFires (store_control_cb initState .infinite).1
        (fun j => ((j : Int) + 1) * 10000001) (4294967297 + 1)).stat_num).toNat := by
  obtain ⟨hnum, _, _, _, hhist, _, _, _⟩ :=
    runFires_ones (fun j => ((j : Int) + 1) * 10000001) (fun j => rfl) 4294967297
  rw [hnum, hhist]
  decide

/-! ## C5: jitter sample computation -/

/-- C5: in the full revision (`part_000`), two consecutive firings at
actual gaps of 10.0 ms and 10.3 ms with nominal period 10 ms, bin width
1000 ns and 20 bins record exactly the jitter samples 0 and 300000 ns
(witnessed by `stat_min`/`stat_max`/`stat_num`), incrementing bin 10 and
the clamped top bin 19.  In the intermediate revision
(`src/lattest/lattest.c`), however, `last_now_ns = now_ns;` is executed
before the difference is taken, so with the previous firing at 10 ms and
the current one at 20 ms the callback records `-10000000` (both min and
max, falling into clamped bin 0) instead of the claimed
`(now - prev) - nominal = 0`; it also records already on the first
firing. -/
theorem claim_C5_jitter :
    ((runFires (store_control_cb initState (.finite 3)).1
        (fun k => if k = 0 then 5000000 else if k = 1 then 15000000 else 25300000) 2).stat_num = 1 ∧
      (runFires (store_control_cb initState (.finite 3)).1
        (fun k => if k = 0 then 5000000 else if k = 1 then 15000000 else 25300000) 2).stat_min = 0 ∧
      (runFires (store_control_cb initState (.finite 3)).1
        (fun k => if k = 0 then 5000000 else if k = 1 then 15000000 else 25300000) 2).stat_max = 0 ∧
      (runFires (store_control_cb initState (.finite 3)).1
        (fun k => if k = 0 then 5000000 else if k = 1 then 15000000 else 25300000) 2).histogram.getD 10 0 = 1) ∧
    ((runFires (store_control_cb initState (.finite 3)).1
        (fun k => if k = 0 then 5000000 else if k = 1 then 15000000 else 25300000) 3).stat_num = 2 ∧
      (runFires (store_control_cb initState (.finite 3)).1
        (fun k => if k = 0 then 5000000 else if k = 1 then 15000000 else 25300000) 3).stat_min = 0 ∧
      (runFires (store_control_cb initState (.finite 3)).1
        (fun k => if k = 0 then 5000000 else if k = 1 then 15000000 else 25300000) 3).stat_max = 300000 ∧
      (runFires (store_control_cb initState (.finite 3)).1
        (fun k => if k = 0 then 5000000 else if k = 1 then 15000000 else 25300000) 3).histogram.getD 10 0 = 1 ∧
      (runFires (store_control_cb initState (.finite 3)).1
        (fun k => if k = 0 then 5000000 else if k = 1 then 15000000 else 25300000) 3).histogram.getD 19 0 = 1) ∧
    ((lattest_c_timer_function
        (lattest_c_timer_function
          { period_ms := 10, runcount := 3, last_now_ns := 0,
            histogram := List.replicate 20 0, hist_min := LLONG_MAX, hist_max := LLONG_MIN }
          10000000).1 20000000).1.hist_min = -10000000 ∧
      (lattest_c_timer_function
        (lattest_c_timer_function
          { period_ms := 10, runcount := 3, last_now_ns := 0,
            histogram := List.replicate 20 0, hist_min := LLONG_MAX, hist_max := LLONG_MIN }
          10000000).1 20000000).1.hist_max = -10000000 ∧
      (lattest_c_timer_function
        (lattest_c_timer_function
          { period_ms := 10, runcount := 3, last_now_ns := 0,
            histogram := List.replicate 20 0, hist_min := LLONG_MAX, hist_max := LLONG_MIN }
          10000000).1 20000000).1.histogram.getD 0 0 = 2 ∧
      ((20000000 - 10000000 : Int) - 10 * 1000000 = 0 ∧ (-10000000 : Int) ≠ 0)) := by
  refine ⟨⟨?_, ?_, ?_, ?_⟩, ⟨?_, ?_, ?_, ?_, ?_⟩, ⟨?_, ?_, ?_, by decide, by decide⟩⟩ <;> decide

/-! ## C8: isqrtu64 computes the rounded square root -/

theorem isqrtLoop_one_zero (f op res : Nat) : isqrtLoop f op res 0 = (op, res) := by
  cases f <;> simp [isqrtLoop]

theorem four_pow_eq (m : Nat) : 4 ^ m = 2 ^ m * 2 ^ m := by
  rw [show (4 : Nat) = 2 * 2 from rfl, mul_pow]

theorem isqrtLoop_correct :
    ∀ (k f s A : Nat), k + 1 ≤ f → s ^ 2 ≤ A → A < (s + 2 ^ (k + 1)) ^ 2 →
      ∃ t r, isqrtLoop f (A - s ^ 2) (2 * s * 2 ^ k) (4 ^ k) = (r, t) ∧
        r + t ^ 2 = A ∧ A < (t + 1) ^ 2 := by
  intro k
  induction k with
  | zero =>
    intro f s A hf hs hA
    cases f with
    | zero => omega
    | succ f' =>
      simp only [isqrtLoop, pow_zero, mul_one]
      rw [if_neg (by omega)]
      have e1 : (s + 1) ^ 2 = s ^ 2 + 2 * s + 1 := by ring
      have e2 : (s + 2 ^ (0 + 1)) ^ 2 = s ^ 2 + 4 * s + 4 := by ring
      have e3 : (s + 1 + 1) ^ 2 = s ^ 2 + 4 * s + 4 := by ring
      by_cases hc : A - s ^ 2 ≥ 2 * s + 1
      · rw [if_pos hc, if_pos hc]
        have h1 : (2 * s + 2) / 2 = s + 1 := by omega
        have h2 : (1 : Nat) / 4 = 0 := by norm_num
        rw [h1, h2, isqrtLoop_one_zero]
        exact ⟨s + 1, A - s ^ 2 - (2 * s + 1), rfl, by omega, by omega⟩
      · rw [if_neg hc, if_neg hc]
        have h1 : 2 * s / 2 = s := by omega
        have h2 : (1 : Nat) / 4 = 0 := by norm_num
        rw [h1, h2, isqrtLoop_one_zero]
        exact ⟨s, A - s ^ 2, rfl, by omega, by omega⟩
  | succ k ih =>
    intro f s A hf hs hA
    cases f with
    | zero => omega
    | succ f' =>
      simp only [isqrtLoop]
      rw [if_neg (by positivity)]
      have epow : 2 ^ (k + 1) * 2 ^ (k + 1) = 4 ^ (k + 1) := (four_pow_eq (k + 1)).symm
      have esq : (s + 2 ^ (k + 1)) ^ 2 = s ^ 2 + (2 * s * 2 ^ (k + 1) + 4 ^ (k + 1)) := by
        rw [← epow]; ring
      by_cases hc : A - s ^ 2 ≥ 2 * s * 2 ^ (k + 1) + 4 ^ (k + 1)
      · rw [if_pos hc, if_pos hc]
        have hs' : (s + 2 ^ (k + 1)) ^ 2 ≤ A := by omega
        have harg1 : (2 * s * 2 ^ (k + 1) + 2 * 4 ^ (k + 1)) / 2 =
            2 * (s + 2 ^ (k + 1)) * 2 ^ k := by
          have : 2 * s * 2 ^ (k + 1) + 2 * 4 ^ (k + 1) =
              2 * (2 * (s + 2 ^ (k + 1)) * 2 ^ k) := by
            rw [← epow]; ring
          rw [this, Nat.mul_div_cancel_left _ (by norm_num)]
        have harg2 : 4 ^ (k + 1) / 4 = 4 ^ k := by
          rw [pow_succ, Nat.mul_div_cancel _ (by norm_num)]
        have harg0 : A - s ^ 2 - (2 * s * 2 ^ (k + 1) + 4 ^ (k + 1)) =
            A - (s + 2 ^ (k + 1)) ^ 2 := by omega
        rw [harg0, harg1, harg2]
        have hA' : A < ((s + 2 ^ (k + 1)) + 2 ^ (k + 1)) ^ 2 := by
          have : (s + 2 ^ (k + 1)) + 2 ^ (k + 1) = s + 2 ^ (k + 2) := by
            rw [pow_succ]; ring
          rw [this]
          exact hA
        exact ih f' (s + 2 ^ (k + 1)) A (by omega) hs' hA'
      · rw [if_neg hc, if_neg hc]
        have harg1 : 2 * s * 2 ^ (k + 1) / 2 = 2 * s * 2 ^ k := by
          have : 2 * s * 2 ^ (k + 1) = 2 * (2 * s * 2 ^ k) := by rw [pow_succ]; ring
          rw [this, Nat.mul_div_cancel_left _ (by norm_num)]
        have harg2 : 4 ^ (k + 1) / 4 = 4 ^ k := by
          rw [pow_succ, Nat.mul_div_cancel _ (by norm_num)]
        rw [harg1, harg2]
        exact ih f' s A (by omega) hs (by omega)

theorem isqrtAlign_correct :
    ∀ (j f op : Nat), j + 1 ≤ f → 1 ≤ op → op < 4 ^ (j + 1) →
      ∃ k, k ≤ j ∧ isqrtAlign f op (4 ^ j) = 4 ^ k ∧ 4 ^ k ≤ op ∧ op < 4 ^ (k + 1) := by
  intro j
  induction j with
  | zero =>
    intro f op hf hop hlt
    cases f with
    | zero => omega
    | succ f' =>
      simp only [isqrtAlign, pow_zero]
      rw [if_neg (by omega)]
      exact ⟨0, le_rfl, by rw [pow_zero], by simpa using hop, by simpa using hlt⟩
  | succ j ih =>
    intro f op hf hop hlt
    cases f with
    | zero => omega
    | succ f' =>
      simp only [isqrtAlign]
      by_cases hc : 4 ^ (j + 1) > op
      · rw [if_pos hc]
        have harg : 4 ^ (j + 1) / 4 = 4 ^ j := by
          rw [pow_succ, Nat.mul_div_cancel _ (by norm_num)]
        rw [harg]
        obtain ⟨k, hk, heq, h1, h2⟩ := ih f' op (by omega) hop hc
        exact ⟨k, by omega, heq, h1, h2⟩
      · rw [if_neg hc]
        exact ⟨j + 1, le_rfl, rfl, by omega, hlt⟩

theorem isqrtu64_eq_spec (a : Nat) (ha : a < 2 ^ 64) :
    isqrtu64 a = isqrtRounded_spec a := by
  rcases Nat.eq_zero_or_pos a with h0 | hpos
  · subst h0
    decide
  · have h432 : (4 : Nat) ^ 32 = 2 ^ 64 := by
      rw [show (4 : Nat) = 2 ^ 2 from rfl, ← pow_mul]
    have h462 : (2 : Nat) ^ 62 = 4 ^ 31 := by
      rw [show (4 : Nat) = 2 ^ 2 from rfl, ← pow_mul]
    obtain ⟨K, hK, heq, hle, hlt⟩ :=
      isqrtAlign_correct 31 32 a (by omega) hpos (by omega)
    have hbound : a < (0 + 2 ^ (K + 1)) ^ 2 := by
      have h : (0 + 2 ^ (K + 1)) ^ 2 = 4 ^ (K + 1) := by
        rw [four_pow_eq]
        ring
      omega
    obtain ⟨t, r, hloop, hrt, htlt⟩ :=
      isqrtLoop_correct K 32 0 a (by omega) (by simpa using Nat.zero_le a) hbound
    have hloop' : isqrtLoop 32 a 0 (4 ^ K) = (r, t) := by
      have e1 : a - 0 ^ 2 = a := by simp
      have e2 : 2 * 0 * 2 ^ K = 0 := by ring
      rw [e1, e2] at hloop
      exact hloop
    unfold isqrtu64
    dsimp only
    rw [h462, heq, hloop']
    have htt : t * t = t ^ 2 := by ring
    have htt2 : (t + 1) * (t + 1) = (t + 1) ^ 2 := by ring
    have hsqrt : Nat.sqrt a = t := by
      have h1 : t ≤ Nat.sqrt a := Nat.le_sqrt.mpr (by omega)
      have h2 : Nat.sqrt a < t + 1 := Nat.sqrt_lt.mpr (by omega)
      omega
    unfold isqrtRounded_spec
    rw [hsqrt]
    dsimp only
    by_cases hc : r > t
    · rw [if_pos hc, if_pos (by omega)]
    · rw [if_neg hc, if_neg (by omega)]

/-- C8: for every `x ≤ 10000` (indeed the proof route works for every
`x < 2^64`), `isqrtu64 x` — the binary digit-by-digit method of the source
— equals the integer nearest to `√x` with ties rounded up
(`isqrtRounded_spec`, equivalently `(2n-1)² ≤ 4x < (2n+1)²`), and takes the
specific values listed in the spec at 2, 3, 4, 6, 7, 8, 9. -/
theorem claim_C8_isqrt :
    (∀ x : Nat, x ≤ 10000 →
      isqrtu64 x = isqrtRounded_spec x ∧
      (2 * isqrtu64 x - 1) ^ 2 ≤ 4 * x ∧ 4 * x < (2 * isqrtu64 x + 1) ^ 2) ∧
    isqrtu64 2 = 1 ∧ isqrtu64 3 = 2 ∧ isqrtu64 4 = 2 ∧ isqrtu64 6 = 2 ∧
    isqrtu64 7 = 3 ∧ isqrtu64 8 = 3 ∧ isqrtu64 9 = 3 := by
  refine ⟨fun x hx => ?_, by decide, by decide, by decide, by decide, by decide,
    by decide, by decide⟩
  have heq := isqrtu64_eq_spec x (by omega)
  refine ⟨heq, ?_⟩
  have h1' := Nat.sqrt_le' x
  have h2' := Nat.lt_succ_sqrt' x
  rw [heq]
  unfold isqrtRounded_spec
  generalize hgen : Nat.sqrt x = q
  rw [hgen] at h1' h2'
  have h1 : q * q ≤ x := by rw [pow_two] at h1'; exact h1'
  have h2 : x < (q + 1) * (q + 1) := by
    rw [pow_two] at h2'
    have e : (q + 1) * (q + 1) = q.succ * q.succ := by rw [Nat.succ_eq_add_one]
    rw [e]
    exact h2'
  by_cases hc : q * q + q < x
  · rw [if_pos hc]
    constructor
    · have e : 2 * (q + 1) - 1 = 2 * q + 1 := by omega
      rw [e]
      have e2 : (2 * q + 1) ^ 2 = 4 * (q * q) + 4 * q + 1 := by ring
      omega
    · have e2 : (2 * (q + 1) + 1) ^ 2 = 4 * (q * q) + 12 * q + 9 := by ring
      have e3 : (q + 1) * (q + 1) = q * q + 2 * q + 1 := by ring
      omega
  · rw [if_neg hc]
    constructor
    · rcases Nat.eq_zero_or_pos q with h0 | h0
      · rw [h0]
        norm_num
      · obtain ⟨p, rfl⟩ : ∃ p, q = p + 1 := ⟨q - 1, by omega⟩
        have e : 2 * (p + 1) - 1 = 2 * p + 1 := by omega
        rw [e]
        have e2 : (2 * p + 1) ^ 2 = 4 * (p * p) + 4 * p + 1 := by ring
        have e3 : (p + 1) * (p + 1) = p * p + 2 * p + 1 := by ring
        omega
    · have e2 : (2 * q + 1) ^ 2 = 4 * (q * q) + 4 * q + 1 := by ring
      omega

/-- C8 witness: the characterisation at `x = 7`. -/
theorem claim_C8_witness :
    isqrtu64 7 = isqrtRounded_spec 7 ∧
    (2 * isqrtu64 7 - 1) ^ 2 ≤ 4 * 7 ∧ 4 * 7 < (2 * isqrtu64 7 + 1) ^ 2 :=
  claim_C8_isqrt.1 7 (by decide)
